import Mathlib

/-!
Verification of the socket multiplexing and lifecycle core of the
`open-core` repository, as a shallow embedding in Lean 4.

The embedding mirrors, definition by definition:
- `src/actor/socket_manager/SocketManager.py` (endpoint bookkeeping,
  link/unlink, boot/stop/reboot/terminate, the background receive loop);
- `src/actor/AbstractActor.py` (the actor owning a named collection of
  socket managers);
- `src/actor/serializer/{Json,MessagePack,Pickle}.py` together with
  executable byte-level models of the external codec libraries they wrap
  (msgspec.json, msgspec.msgpack, the stdlib pickle module, protocol 5).

Python byte strings are modelled as `List Nat` (byte values), Python sets
of endpoint strings as duplicate-free `List String` (with the idempotent
`set.add` and the `KeyError`-raising `set.remove` semantics), and the
external transport socket as an event trace recording the calls made on it.
Exceptions are modelled by returning the state reached so far together with
an optional error, since Python exceptions leave prior mutations in place.
-/

namespace OpenCore

/-- Python byte strings, as lists of byte values. -/
abbrev Bytes := List Nat

/-- An outbound frame: topic bytes paired with payload bytes. -/
abbrev Frame := Bytes × Bytes

/-- Calls made on the wrapped zmq socket, recorded as an event trace. -/
inductive SocketOp where
  | bindOp (endpoint : String)
  | connectOp (endpoint : String)
  | unbindOp (endpoint : String)
  | disconnectOp (endpoint : String)
  | closeOp
  deriving DecidableEq, Repr

/-- Python exceptions raised by the socket manager code paths. -/
inductive SMError where
  | valueError
  | keyError
  deriving DecidableEq, Repr

/-- Python `set.add`: a no-op when the element is already present. -/
def setAdd (s : List String) (e : String) : List String :=
  if e ∈ s then s else s ++ [e]

/-- The `endpoints` dictionary of a socket manager: exactly four keys,
`bind` and `connect` hold the active links, `unbind` and `disconnect` are
the teardown staging sets. -/
structure Endpoints where
  bind : List String
  connect : List String
  unbind : List String
  disconnect : List String
  deriving DecidableEq, Repr

/-- State of one `SocketManager`: its name, endpoint sets, subscription
set, the two queues, the two background task handles (modelled by their
presence), whether the socket was closed, and the trace of socket calls. -/
structure SocketManager where
  name : String
  endpoints : Endpoints
  subscriptions : List Bytes
  emitQueue : List Frame
  recvQueue : List Bytes
  emitTask : Bool
  recvTask : Bool
  socketClosed : Bool
  ops : List SocketOp
  deriving DecidableEq, Repr

/-- Result of an operation that can raise: the state reached so far and an
optional exception. -/
abbrev SMResult := SocketManager × Option SMError

/-- Sequencing that propagates a raised exception. -/
def andThen (r : SMResult) (f : SocketManager → SMResult) : SMResult :=
  match r with
  | (sm, none) => f sm
  | (sm, some e) => (sm, some e)

/-- `SocketManager.__init__`: fresh manager with empty sets and queues. -/
def SocketManager.init (n : String) : SocketManager :=
  { name := n
    endpoints := { bind := [], connect := [], unbind := [], disconnect := [] }
    subscriptions := []
    emitQueue := []
    recvQueue := []
    emitTask := false
    recvTask := false
    socketClosed := false
    ops := [] }

/-- The `Literal['bind', 'connect']` forward-link methods. -/
inductive LinkMethod where
  | bind
  | connect
  deriving DecidableEq, Repr

/-- The `Literal['unbind', 'disconnect']` teardown methods. -/
inductive UnlinkMethod where
  | unbind
  | disconnect
  deriving DecidableEq, Repr

/-- `SocketManager._link`: if the endpoint is not yet in the active set of
the method, call the transport bind/connect, add it to the active set and
to the matching staging set (`unbind` for `bind`, `disconnect` for
`connect`); otherwise raise `ValueError`. -/
def SocketManager.link (sm : SocketManager) (m : LinkMethod) (e : String) :
    SMResult :=
  match m with
  | .bind =>
    if e ∉ sm.endpoints.bind then
      ({ sm with
          ops := sm.ops ++ [SocketOp.bindOp e]
          endpoints := { sm.endpoints with
            bind := setAdd sm.endpoints.bind e
            unbind := setAdd sm.endpoints.unbind e } }, none)
    else
      (sm, some .valueError)
  | .connect =>
    if e ∉ sm.endpoints.connect then
      ({ sm with
          ops := sm.ops ++ [SocketOp.connectOp e]
          endpoints := { sm.endpoints with
            connect := setAdd sm.endpoints.connect e
            disconnect := setAdd sm.endpoints.disconnect e } }, none)
    else
      (sm, some .valueError)

/-- `SocketManager._unlink`: if the endpoint is in the active set of the
corresponding forward method (`bind` for `unbind`, `connect` for
`disconnect`), call the transport teardown and then do
`self.endpoints[method].remove(endpoint)` — removal from the STAGING set,
which raises `KeyError` when the endpoint is absent from it; otherwise
raise `ValueError`. -/
def SocketManager.unlink (sm : SocketManager) (m : UnlinkMethod) (e : String) :
    SMResult :=
  match m with
  | .unbind =>
    if e ∈ sm.endpoints.bind then
      let sm1 := { sm with ops := sm.ops ++ [SocketOp.unbindOp e] }
      if e ∈ sm1.endpoints.unbind then
        ({ sm1 with endpoints :=
            { sm1.endpoints with unbind := sm1.endpoints.unbind.erase e } },
          none)
      else
        (sm1, some .keyError)
    else
      (sm, some .valueError)
  | .disconnect =>
    if e ∈ sm.endpoints.connect then
      let sm1 := { sm with ops := sm.ops ++ [SocketOp.disconnectOp e] }
      if e ∈ sm1.endpoints.disconnect then
        ({ sm1 with endpoints :=
            { sm1.endpoints with
              disconnect := sm1.endpoints.disconnect.erase e } },
          none)
      else
        (sm1, some .keyError)
    else
      (sm, some .valueError)

/-- `SocketManager.unbind`: public wrapper around `_unlink('unbind', e)`. -/
def SocketManager.unbindEndpoint (sm : SocketManager) (e : String) : SMResult :=
  sm.unlink .unbind e

/-- `SocketManager.disconnect`: public wrapper around
`_unlink('disconnect', e)`. -/
def SocketManager.disconnectEndpoint (sm : SocketManager) (e : String) :
    SMResult :=
  sm.unlink .disconnect e

/-- `SocketManager.is_emitting`: the background emitter task is present. -/
def SocketManager.is_emitting (sm : SocketManager) : Bool :=
  sm.emitTask

/-- `SocketManager.is_receiving`: the background receiver task is present. -/
def SocketManager.is_receiving (sm : SocketManager) : Bool :=
  sm.recvTask

/-- `SocketManager.boot`: spawn the emitter when a bind link exists and the
emitter is not running, spawn the receiver when a connect link exists and
the receiver is not running; re-booting a running pipeline only prints a
warning. -/
def SocketManager.boot (sm : SocketManager) : SocketManager :=
  let sm1 :=
    if sm.endpoints.bind ≠ [] ∧ ¬ sm.is_emitting then
      { sm with emitTask := true }
    else sm
  if sm1.endpoints.connect ≠ [] ∧ ¬ sm1.is_receiving then
    { sm1 with recvTask := true }
  else sm1

/-- `SocketManager.stop_emitting`: cancel and await the emitter task if
running, then clear its handle. -/
def SocketManager.stop_emitting (sm : SocketManager) : SocketManager :=
  if sm.is_emitting then { sm with emitTask := false } else sm

/-- `SocketManager.stop_receiving`: cancel and await the receiver task if
running, then clear its handle. -/
def SocketManager.stop_receiving (sm : SocketManager) : SocketManager :=
  if sm.is_receiving then { sm with recvTask := false } else sm

/-- `SocketManager.empty_queues`: replace both queues by fresh empty ones. -/
def SocketManager.empty_queues (sm : SocketManager) : SocketManager :=
  { sm with emitQueue := [], recvQueue := [] }

/-- `SocketManager.stop`: stop emitting, stop receiving, and empty both
queues when asked to. -/
def SocketManager.stop (sm : SocketManager) (emptyQueue : Bool) :
    SocketManager :=
  let sm1 := sm.stop_emitting.stop_receiving
  if emptyQueue then sm1.empty_queues else sm1

/-- `SocketManager.reboot`: `stop(empty_queue=True)` then `boot()`. -/
def SocketManager.reboot (sm : SocketManager) : SocketManager :=
  (sm.stop true).boot

/-- `SocketManager.emit`: append a frame to the emit queue. -/
def SocketManager.emit (sm : SocketManager) (event : Frame) : SocketManager :=
  { sm with emitQueue := sm.emitQueue ++ [event] }

/-- The inner `for endpoint in endpoints: self._unlink(...)` loop of
`terminate`, applying one teardown method to each endpoint in sequence and
propagating the first raised exception. -/
def unlinkSeq (sm : SocketManager) (m : UnlinkMethod) (es : List String) :
    SMResult :=
  match es with
  | [] => (sm, none)
  | e :: rest =>
    match sm.unlink m e with
    | (sm1, none) => unlinkSeq sm1 m rest
    | (sm1, some err) => (sm1, some err)

/-- Clear the set stored under one key of the `endpoints` dictionary. -/
def clearKey (sm : SocketManager) (k : Nat) : SocketManager :=
  match k with
  | 0 => { sm with endpoints := { sm.endpoints with bind := [] } }
  | 1 => { sm with endpoints := { sm.endpoints with connect := [] } }
  | 2 => { sm with endpoints := { sm.endpoints with unbind := [] } }
  | _ => { sm with endpoints := { sm.endpoints with disconnect := [] } }

/-- `SocketManager.terminate`: `stop(empty_queue=True)`, then iterate over
the four keys of the `endpoints` dictionary in insertion order
(`bind`, `connect`, `unbind`, `disconnect`); for each key, `_unlink` every
endpoint in its set with `'unbind'` when the key is `bind` and
`'disconnect'` otherwise, then clear that set; finally close the socket.
Exceptions raised by `_unlink` propagate, skipping the rest. -/
def SocketManager.terminate (sm : SocketManager) : SMResult :=
  let sm0 := sm.stop true
  andThen (unlinkSeq sm0 .unbind sm0.endpoints.bind) fun sm1 =>
  let sm1 := clearKey sm1 0
  andThen (unlinkSeq sm1 .disconnect sm1.endpoints.connect) fun sm2 =>
  let sm2 := clearKey sm2 1
  andThen (unlinkSeq sm2 .disconnect sm2.endpoints.unbind) fun sm3 =>
  let sm3 := clearKey sm3 2
  andThen (unlinkSeq sm3 .disconnect sm3.endpoints.disconnect) fun sm4 =>
  let sm4 := clearKey sm4 3
  ({ sm4 with socketClosed := true, ops := sm4.ops ++ [SocketOp.closeOp] },
    none)

end OpenCore

namespace OpenCore

/-- The mirror invariant of the endpoint bookkeeping: every endpoint staged
for teardown is an active link of the corresponding forward method. -/
def SocketManager.stagingSub (sm : SocketManager) : Prop :=
  (∀ x ∈ sm.endpoints.unbind, x ∈ sm.endpoints.bind) ∧
  (∀ x ∈ sm.endpoints.disconnect, x ∈ sm.endpoints.connect)

instance (sm : SocketManager) : Decidable sm.stagingSub := by
  unfold SocketManager.stagingSub; infer_instance

end OpenCore

namespace OpenCore

/-- C1: evaluating `_unlink` at a concrete failing input. After a
successful `bind` of `inproc://ref`, the `unbind` of that endpoint
succeeds but leaves the endpoint in the active `bind` set, removing it
from the `unbind` staging set instead; a second `unbind` of the same
endpoint then raises `KeyError` from `set.remove` rather than the
designed "not linked" `ValueError`. This contradicts the claim that a
successful unbind removes the endpoint from the active bind set. -/
theorem unbind_keeps_active_bind_set :
    ((((SocketManager.init ("sm")).link .bind ("inproc://ref")).1.unbindEndpoint
        ("inproc://ref")).2 = none) ∧
    ("inproc://ref") ∈
      (((SocketManager.init ("sm")).link .bind ("inproc://ref")).1.unbindEndpoint
        ("inproc://ref")).1.endpoints.bind ∧
    ("inproc://ref") ∉
      (((SocketManager.init ("sm")).link .bind ("inproc://ref")).1.unbindEndpoint
        ("inproc://ref")).1.endpoints.unbind ∧
    (((((SocketManager.init ("sm")).link .bind ("inproc://ref")).1.unbindEndpoint
        ("inproc://ref")).1.unbindEndpoint ("inproc://ref")).2
      = some SMError.keyError) := by
  decide

/-- C2: evaluating `terminate` at a concrete failing input. After the
successful sequence `bind(inproc://ref)` then `unbind(inproc://ref)`,
`terminate()` raises `KeyError` (the active `bind` set still holds the
endpoint but the `unbind` staging set does not), leaves the `bind` set
non-empty, and never closes the socket — contradicting the claim that
`terminate` completes without error after any sequence of successful link
and unlink operations. -/
theorem terminate_raises_after_unbind :
    (((((SocketManager.init ("sm")).link .bind ("inproc://ref")).1.unbindEndpoint
        ("inproc://ref")).1.terminate).2 = some SMError.keyError) ∧
    (((((SocketManager.init ("sm")).link .bind ("inproc://ref")).1.unbindEndpoint
        ("inproc://ref")).1.terminate).1.endpoints.bind ≠ []) ∧
    (((((SocketManager.init ("sm")).link .bind ("inproc://ref")).1.unbindEndpoint
        ("inproc://ref")).1.terminate).1.socketClosed = false) := by
  decide

/-- C3: linking an endpoint already active under the same method raises a
duplicate-link `ValueError` and changes no state; a successful `bind`
leaves the endpoint present exactly once in the active `bind` set and
exactly once in the `unbind` staging set, and symmetrically for
`connect` and the `disconnect` staging set. -/
theorem link_duplicate_fails_and_stages_once
    (sm : SocketManager) (e : String) (h : sm.stagingSub) :
    (e ∈ sm.endpoints.bind →
      sm.link .bind e = (sm, some SMError.valueError)) ∧
    (e ∈ sm.endpoints.connect →
      sm.link .connect e = (sm, some SMError.valueError)) ∧
    (e ∉ sm.endpoints.bind →
      (sm.link .bind e).2 = none ∧
      ((sm.link .bind e).1.endpoints.bind).count e = 1 ∧
      ((sm.link .bind e).1.endpoints.unbind).count e = 1) ∧
    (e ∉ sm.endpoints.connect →
      (sm.link .connect e).2 = none ∧
      ((sm.link .connect e).1.endpoints.connect).count e = 1 ∧
      ((sm.link .connect e).1.endpoints.disconnect).count e = 1) := by
  refine ⟨fun he => ?_, fun he => ?_, fun he => ?_, fun he => ?_⟩
  · simp [SocketManager.link, he]
  · simp [SocketManager.link, he]
  · have hu : e ∉ sm.endpoints.unbind := fun hin => he (h.1 e hin)
    have hb0 : (sm.endpoints.bind).count e = 0 := List.count_eq_zero.mpr he
    have hu0 : (sm.endpoints.unbind).count e = 0 := List.count_eq_zero.mpr hu
    simp [SocketManager.link, he, setAdd, hu, List.count_append, hb0, hu0]
  · have hd : e ∉ sm.endpoints.disconnect := fun hin => he (h.2 e hin)
    have hc0 : (sm.endpoints.connect).count e = 0 := List.count_eq_zero.mpr he
    have hd0 : (sm.endpoints.disconnect).count e = 0 := List.count_eq_zero.mpr hd
    simp [SocketManager.link, he, setAdd, hd, List.count_append, hc0, hd0]

/-- Witness for C3: the hypotheses hold at a freshly initialized manager
and the endpoint `inproc://ref`, where the success branches apply. -/
theorem link_duplicate_fails_and_stages_once_witness :
    (SocketManager.init ("sm")).stagingSub ∧
    ((("inproc://ref") ∉ (SocketManager.init ("sm")).endpoints.bind) ∧
      (((SocketManager.init ("sm")).link .bind ("inproc://ref")).2 = none ∧
        ((((SocketManager.init ("sm")).link .bind
            ("inproc://ref")).1.endpoints.bind).count ("inproc://ref") = 1 ∧
          (((SocketManager.init ("sm")).link .bind
            ("inproc://ref")).1.endpoints.unbind).count ("inproc://ref") = 1))) :=
  ⟨by decide,
    by decide,
    by
      have h := link_duplicate_fails_and_stages_once
        (SocketManager.init ("sm")) ("inproc://ref") (by decide)
      have h3 := h.2.2.1 (by decide)
      exact ⟨h3.1, h3.2.1, h3.2.2⟩⟩

end OpenCore

namespace OpenCore

/-- `SocketManager.get_inproc_endpoint`. -/
def SocketManager.get_inproc_endpoint (reference : String) : String :=
  "inproc://" ++ reference

/-- `SocketManager.get_ipc_endpoint`. -/
def SocketManager.get_ipc_endpoint (reference : String) : String :=
  "ipc:///tmp/" ++ reference ++ ".ipc"

/-- `SocketManager.get_udp_endpoint`. -/
def SocketManager.get_udp_endpoint (ip_address : String) (port : String) :
    String :=
  "udp://" ++ ip_address ++ ":" ++ port

/-- `SocketManager.get_tcp_endpoint`. -/
def SocketManager.get_tcp_endpoint (ip_address : String) (port : String) :
    String :=
  "tcp://" ++ ip_address ++ ":" ++ port

/-- `SocketManager.get_pgm_endpoint`. -/
def SocketManager.get_pgm_endpoint (ip_address : String) (port : String) :
    String :=
  "pgm://" ++ ip_address ++ ";" ++ port

/-- `SocketManager.get_epgm_endpoint`. -/
def SocketManager.get_epgm_endpoint (ip_address : String) (port : String) :
    String :=
  "epgm://" ++ ip_address ++ ";" ++ port

/-- A scheme together with its structured parameters, one constructor per
endpoint builder function. -/
inductive EndpointSpec where
  | inproc (reference : String)
  | ipc (reference : String)
  | udp (ip_address port : String)
  | tcp (ip_address port : String)
  | pgm (ip_address port : String)
  | epgm (ip_address port : String)
  deriving DecidableEq, Repr

/-- Dispatch from a structured (scheme, params) pair to the matching
endpoint builder function. -/
def buildEndpoint : EndpointSpec → String
  | .inproc r => SocketManager.get_inproc_endpoint r
  | .ipc r => SocketManager.get_ipc_endpoint r
  | .udp ip p => SocketManager.get_udp_endpoint ip p
  | .tcp ip p => SocketManager.get_tcp_endpoint ip p
  | .pgm ip p => SocketManager.get_pgm_endpoint ip p
  | .epgm ip p => SocketManager.get_epgm_endpoint ip p

/-- Well-formed parameters: the address part of a network scheme does not
contain the scheme's address/port separator. Reference tokens are
unconstrained, as in the source (no validation at this layer). -/
def EndpointSpec.wf : EndpointSpec → Prop
  | .inproc _ => True
  | .ipc _ => True
  | .udp ip _ => (':') ∉ ip.data
  | .tcp ip _ => (':') ∉ ip.data
  | .pgm ip _ => (';') ∉ ip.data
  | .epgm ip _ => (';') ∉ ip.data

instance (s : EndpointSpec) : Decidable s.wf := by
  cases s <;> (unfold EndpointSpec.wf; infer_instance)

/-- Splitting a character list at a distinguished character not occurring
in the left part is unique. -/
theorem split_at_char_unique {c : Char} :
    ∀ {a a' b b' : List Char}, c ∉ a → c ∉ a' →
      a ++ c :: b = a' ++ c :: b' → a = a' ∧ b = b' := by
  intro a
  induction a with
  | nil =>
    intro a' b b' _ ha' h
    cases a' with
    | nil => simpa using h
    | cons x xs =>
      simp only [List.nil_append, List.cons_append, List.cons.injEq] at h
      exact absurd (h.1 ▸ List.mem_cons_self x xs) ha'
  | cons x xs ih =>
    intro a' b b' ha ha' h
    cases a' with
    | nil =>
      simp only [List.nil_append, List.cons_append, List.cons.injEq] at h
      exact absurd (h.1.symm ▸ List.mem_cons_self x xs) ha
    | cons y ys =>
      simp only [List.cons_append, List.cons.injEq] at h
      have ha2 : c ∉ xs := fun hc => ha (List.mem_cons_of_mem x hc)
      have ha2' : c ∉ ys := fun hc => ha' (List.mem_cons_of_mem y hc)
      obtain ⟨h1, h2⟩ := ih ha2 ha2' h.2
      exact ⟨by rw [h.1, h1], h2⟩

end OpenCore

namespace OpenCore

/-- The first two characters of a built endpoint string identify its
scheme: all six schemes start with distinct two-character prefixes. -/
def scheme2 : EndpointSpec → List Char
  | .inproc _ => ['i', 'n']
  | .ipc _ => ['i', 'p']
  | .udp _ _ => ['u', 'd']
  | .tcp _ _ => ['t', 'c']
  | .pgm _ _ => ['p', 'g']
  | .epgm _ _ => ['e', 'p']

theorem buildEndpoint_take2 (s : EndpointSpec) :
    (buildEndpoint s).data.take 2 = scheme2 s := by
  cases s <;> rfl

theorem data_lit_inproc :
    (("inproc://") : String).data = ['i', 'n', 'p', 'r', 'o', 'c', ':', '/', '/'] := rfl

theorem data_lit_ipc :
    (("ipc:///tmp/") : String).data
      = ['i', 'p', 'c', ':', '/', '/', '/', 't', 'm', 'p', '/'] := rfl

theorem data_lit_ipc_suffix : ((".ipc") : String).data = ['.', 'i', 'p', 'c'] := rfl

theorem data_lit_udp : (("udp://") : String).data = ['u', 'd', 'p', ':', '/', '/'] := rfl

theorem data_lit_tcp : (("tcp://") : String).data = ['t', 'c', 'p', ':', '/', '/'] := rfl

theorem data_lit_pgm : (("pgm://") : String).data = ['p', 'g', 'm', ':', '/', '/'] := rfl

theorem data_lit_epgm : (("epgm://") : String).data = ['e', 'p', 'g', 'm', ':', '/', '/'] := rfl

theorem data_lit_colon : ((":") : String).data = [':'] := rfl

theorem data_lit_semicolon : ((";") : String).data = [';'] := rfl

end OpenCore

namespace OpenCore

/-- C9 (amended): the endpoint builders are pure functions producing
exactly the canonical strings of the specification, and the builder map
from (scheme, params) to strings is injective provided the address part of
a network scheme does not itself contain that scheme's address/port
separator (for arbitrary strings the claim fails, see the
counterexample). -/
theorem endpoint_builders_canonical_and_injective :
    SocketManager.get_inproc_endpoint ("ref") = "inproc://ref" ∧
    SocketManager.get_ipc_endpoint ("ref") = "ipc:///tmp/ref.ipc" ∧
    SocketManager.get_udp_endpoint ("127.0.0.1") ("5555") = "udp://127.0.0.1:5555" ∧
    SocketManager.get_tcp_endpoint ("127.0.0.1") ("5555") = "tcp://127.0.0.1:5555" ∧
    SocketManager.get_pgm_endpoint ("127.0.0.1") ("5555") = "pgm://127.0.0.1;5555" ∧
    SocketManager.get_epgm_endpoint ("127.0.0.1") ("5555") = "epgm://127.0.0.1;5555" ∧
    ∀ s t : EndpointSpec, s.wf → t.wf →
      buildEndpoint s = buildEndpoint t → s = t := by
  refine ⟨rfl, rfl, rfl, rfl, rfl, rfl, ?_⟩
  intro s t hs ht h
  have h2 : scheme2 s = scheme2 t := by
    rw [← buildEndpoint_take2, ← buildEndpoint_take2, h]
  have hd : (buildEndpoint s).data = (buildEndpoint t).data := by rw [h]
  cases s <;> cases t <;>
    simp only [scheme2, List.cons.injEq, and_true] at h2 <;>
    first
    | (exfalso; revert h2; decide)
    | skip
  case inproc.inproc r1 r2 =>
    simp only [buildEndpoint, SocketManager.get_inproc_endpoint,
      String.data_append, data_lit_inproc, List.cons_append, List.nil_append,
      List.cons.injEq, true_and] at hd
    exact congrArg EndpointSpec.inproc (String.ext hd)
  case ipc.ipc r1 r2 =>
    simp only [buildEndpoint, SocketManager.get_ipc_endpoint,
      String.data_append, data_lit_ipc, data_lit_ipc_suffix, List.append_assoc,
      List.cons_append, List.nil_append, List.cons.injEq, true_and] at hd
    exact congrArg EndpointSpec.ipc (String.ext (List.append_cancel_right hd))
  case udp.udp ip1 p1 ip2 p2 =>
    simp only [buildEndpoint, SocketManager.get_udp_endpoint,
      String.data_append, data_lit_udp, data_lit_colon, List.append_assoc,
      List.cons_append, List.nil_append, List.cons.injEq, true_and] at hd
    obtain ⟨hip, hp⟩ := split_at_char_unique hs ht hd
    rw [String.ext hip, String.ext hp]
  case tcp.tcp ip1 p1 ip2 p2 =>
    simp only [buildEndpoint, SocketManager.get_tcp_endpoint,
      String.data_append, data_lit_tcp, data_lit_colon, List.append_assoc,
      List.cons_append, List.nil_append, List.cons.injEq, true_and] at hd
    obtain ⟨hip, hp⟩ := split_at_char_unique hs ht hd
    rw [String.ext hip, String.ext hp]
  case pgm.pgm ip1 p1 ip2 p2 =>
    simp only [buildEndpoint, SocketManager.get_pgm_endpoint,
      String.data_append, data_lit_pgm, data_lit_semicolon, List.append_assoc,
      List.cons_append, List.nil_append, List.cons.injEq, true_and] at hd
    obtain ⟨hip, hp⟩ := split_at_char_unique hs ht hd
    rw [String.ext hip, String.ext hp]
  case epgm.epgm ip1 p1 ip2 p2 =>
    simp only [buildEndpoint, SocketManager.get_epgm_endpoint,
      String.data_append, data_lit_epgm, data_lit_semicolon, List.append_assoc,
      List.cons_append, List.nil_append, List.cons.injEq, true_and] at hd
    obtain ⟨hip, hp⟩ := split_at_char_unique hs ht hd
    rw [String.ext hip, String.ext hp]

end OpenCore

namespace OpenCore

/-- C9 counterexample: with arbitrary string parameters two distinct
(scheme, params) pairs can collide: passing an address that already
contains the separator, `get_tcp_endpoint("127.0.0.1:5555", "5555")` and
`get_tcp_endpoint("127.0.0.1", "5555:5555")` produce the same endpoint
string, refuting the unconditional injectivity claim. -/
theorem endpoint_builders_collision :
    EndpointSpec.tcp ("127.0.0.1:5555") ("5555")
        ≠ EndpointSpec.tcp ("127.0.0.1") ("5555:5555") ∧
    buildEndpoint (EndpointSpec.tcp ("127.0.0.1:5555") ("5555"))
      = buildEndpoint (EndpointSpec.tcp ("127.0.0.1") ("5555:5555")) :=
  ⟨by decide, by decide⟩

/-- Witness for C9: the well-formedness hypotheses hold at a concrete
network endpoint whose address is free of the separator. -/
theorem endpoint_builders_canonical_and_injective_witness :
    (EndpointSpec.udp ("127.0.0.1") ("5555")).wf ∧
    EndpointSpec.udp ("127.0.0.1") ("5555")
      = EndpointSpec.udp ("127.0.0.1") ("5555") :=
  ⟨by decide,
    endpoint_builders_canonical_and_injective.2.2.2.2.2.2 _ _
      (by decide) (by decide) rfl⟩

end OpenCore

namespace OpenCore

/-- Mirror invariant plus duplicate-freedom of the endpoint bookkeeping:
each of the four sets is duplicate-free and the staging sets hold exactly
the active links (every active link is staged for teardown and vice
versa), as the specification describes the data model. -/
def SocketManager.mirrored (sm : SocketManager) : Prop :=
  sm.endpoints.bind.Nodup ∧ sm.endpoints.connect.Nodup ∧
  sm.endpoints.unbind.Nodup ∧ sm.endpoints.disconnect.Nodup ∧
  (∀ x ∈ sm.endpoints.unbind, x ∈ sm.endpoints.bind) ∧
  (∀ x ∈ sm.endpoints.bind, x ∈ sm.endpoints.unbind) ∧
  (∀ x ∈ sm.endpoints.disconnect, x ∈ sm.endpoints.connect) ∧
  (∀ x ∈ sm.endpoints.connect, x ∈ sm.endpoints.disconnect)

instance (sm : SocketManager) : Decidable sm.mirrored := by
  unfold SocketManager.mirrored; infer_instance

theorem stop_true_eq (sm : SocketManager) :
    sm.stop true = { sm with emitTask := false, recvTask := false,
                             emitQueue := [], recvQueue := [] } := by
  obtain ⟨nm, eps, subs, emq, rq, et, rt, sc, ops⟩ := sm
  simp only [SocketManager.stop, SocketManager.stop_emitting,
    SocketManager.stop_receiving, SocketManager.empty_queues,
    SocketManager.is_emitting, SocketManager.is_receiving]
  cases et <;> cases rt <;> simp

theorem stop_false_eq (sm : SocketManager) :
    sm.stop false = { sm with emitTask := false, recvTask := false } := by
  obtain ⟨nm, eps, subs, emq, rq, et, rt, sc, ops⟩ := sm
  simp only [SocketManager.stop, SocketManager.stop_emitting,
    SocketManager.stop_receiving, SocketManager.empty_queues,
    SocketManager.is_emitting, SocketManager.is_receiving]
  cases et <;> cases rt <;> simp

/-- Running the teardown loop of `terminate` with method `unbind` over a
duplicate-free listing `es` of endpoints that are all active binds, when
the `unbind` staging set holds exactly the members of `es`, succeeds,
records one transport unbind per endpoint, and drains the staging set. -/
theorem unlinkSeq_unbind_ok :
    ∀ (es : List String) (sm : SocketManager), es.Nodup →
      (∀ x ∈ es, x ∈ sm.endpoints.bind) →
      (∀ x, x ∈ sm.endpoints.unbind ↔ x ∈ es) →
      sm.endpoints.unbind.Nodup →
      unlinkSeq sm .unbind es =
        ({ sm with
            ops := sm.ops ++ es.map SocketOp.unbindOp
            endpoints := { sm.endpoints with unbind := [] } }, none) := by
  intro es
  induction es with
  | nil =>
    intro sm _ _ hiff _
    have h0 : sm.endpoints.unbind = [] :=
      List.eq_nil_iff_forall_not_mem.mpr (fun x hx => by simpa using (hiff x).mp hx)
    obtain ⟨nm, ⟨b, c, u, d⟩, subs, emq, rq, et, rt, sc, ops⟩ := sm
    simp only at h0
    subst h0
    simp [unlinkSeq]
  | cons e rest ih =>
    intro sm hnd hact hiff hund
    have he_bind : e ∈ sm.endpoints.bind := hact e (List.mem_cons_self e rest)
    have he_stage : e ∈ sm.endpoints.unbind := (hiff e).mpr (List.mem_cons_self e rest)
    have henr : e ∉ rest := (List.nodup_cons.mp hnd).1
    have hndr : rest.Nodup := (List.nodup_cons.mp hnd).2
    simp only [unlinkSeq, SocketManager.unlink, he_bind, if_true, he_stage]
    set sm1 : SocketManager :=
      { sm with
          ops := sm.ops ++ [SocketOp.unbindOp e]
          endpoints :=
            { sm.endpoints with unbind := sm.endpoints.unbind.erase e } }
      with hsm1
    have h1 : ∀ x ∈ rest, x ∈ sm1.endpoints.bind :=
      fun x hx => hact x (List.mem_cons_of_mem e hx)
    have h2 : ∀ x, x ∈ sm1.endpoints.unbind ↔ x ∈ rest := by
      intro x
      constructor
      · intro hx
        have hxu : x ∈ sm.endpoints.unbind := List.mem_of_mem_erase hx
        rcases List.mem_cons.mp ((hiff x).mp hxu) with h1x | h2x
        · exact absurd (h1x ▸ hx) hund.not_mem_erase
        · exact h2x
      · intro hx
        have hne : x ≠ e := fun hq => henr (hq ▸ hx)
        exact (List.mem_erase_of_ne hne).mpr
          ((hiff x).mpr (List.mem_cons_of_mem e hx))
    have h3 : sm1.endpoints.unbind.Nodup := hund.erase e
    rw [ih sm1 hndr h1 h2 h3]
    simp [hsm1, List.append_assoc]

end OpenCore

namespace OpenCore

/-- Disconnect analogue of `unlinkSeq_unbind_ok`. -/
theorem unlinkSeq_disconnect_ok :
    ∀ (es : List String) (sm : SocketManager), es.Nodup →
      (∀ x ∈ es, x ∈ sm.endpoints.connect) →
      (∀ x, x ∈ sm.endpoints.disconnect ↔ x ∈ es) →
      sm.endpoints.disconnect.Nodup →
      unlinkSeq sm .disconnect es =
        ({ sm with
            ops := sm.ops ++ es.map SocketOp.disconnectOp
            endpoints := { sm.endpoints with disconnect := [] } }, none) := by
  intro es
  induction es with
  | nil =>
    intro sm _ _ hiff _
    have h0 : sm.endpoints.disconnect = [] :=
      List.eq_nil_iff_forall_not_mem.mpr (fun x hx => by simpa using (hiff x).mp hx)
    obtain ⟨nm, ⟨b, c, u, d⟩, subs, emq, rq, et, rt, sc, ops⟩ := sm
    simp only at h0
    subst h0
    simp [unlinkSeq]
  | cons e rest ih =>
    intro sm hnd hact hiff hdnd
    have he_conn : e ∈ sm.endpoints.connect := hact e (List.mem_cons_self e rest)
    have he_stage : e ∈ sm.endpoints.disconnect :=
      (hiff e).mpr (List.mem_cons_self e rest)
    have henr : e ∉ rest := (List.nodup_cons.mp hnd).1
    have hndr : rest.Nodup := (List.nodup_cons.mp hnd).2
    simp only [unlinkSeq, SocketManager.unlink, he_conn, if_true, he_stage]
    set sm1 : SocketManager :=
      { sm with
          ops := sm.ops ++ [SocketOp.disconnectOp e]
          endpoints :=
            { sm.endpoints with
              disconnect := sm.endpoints.disconnect.erase e } }
      with hsm1
    have h1 : ∀ x ∈ rest, x ∈ sm1.endpoints.connect :=
      fun x hx => hact x (List.mem_cons_of_mem e hx)
    have h2 : ∀ x, x ∈ sm1.endpoints.disconnect ↔ x ∈ rest := by
      intro x
      constructor
      · intro hx
        have hxu : x ∈ sm.endpoints.disconnect := List.mem_of_mem_erase hx
        rcases List.mem_cons.mp ((hiff x).mp hxu) with h1x | h2x
        · exact absurd (h1x ▸ hx) hdnd.not_mem_erase
        · exact h2x
      · intro hx
        have hne : x ≠ e := fun hq => henr (hq ▸ hx)
        exact (List.mem_erase_of_ne hne).mpr
          ((hiff x).mpr (List.mem_cons_of_mem e hx))
    have h3 : sm1.endpoints.disconnect.Nodup := hdnd.erase e
    rw [ih sm1 hndr h1 h2 h3]
    simp [hsm1, List.append_assoc]

/-- Under the mirror invariant, `terminate` succeeds: it stops both
pipelines, discards the queues, applies the matching transport teardown
to every active endpoint, clears all four endpoint sets and closes the
socket. -/
theorem terminate_ok (sm : SocketManager) (h : sm.mirrored) :
    sm.terminate =
      ({ sm with
          emitTask := false
          recvTask := false
          emitQueue := []
          recvQueue := []
          endpoints := { bind := [], connect := [], unbind := [], disconnect := [] }
          socketClosed := true
          ops := sm.ops ++ sm.endpoints.bind.map SocketOp.unbindOp
            ++ sm.endpoints.connect.map SocketOp.disconnectOp
            ++ [SocketOp.closeOp] }, none) := by
  obtain ⟨hbnd, hcnd, hund, hdnd, hub, hbu, hdc, hcd⟩ := h
  obtain ⟨nm, ⟨b, c, u, d⟩, subs, emq, rq, et, rt, sc, ops⟩ := sm
  simp only at hbnd hcnd hund hdnd hub hbu hdc hcd
  set smA : SocketManager :=
    { name := nm, endpoints := { bind := b, connect := c, unbind := u, disconnect := d },
      subscriptions := subs, emitQueue := [], recvQueue := [],
      emitTask := false, recvTask := false, socketClosed := sc, ops := ops }
    with hA
  have h1 : unlinkSeq smA .unbind b =
      ({ smA with
          ops := smA.ops ++ b.map SocketOp.unbindOp
          endpoints := { smA.endpoints with unbind := [] } }, none) :=
    unlinkSeq_unbind_ok b smA hbnd (fun x hx => hx)
      (fun x => ⟨fun hx => hub x hx, fun hx => hbu x hx⟩) hund
  set smB : SocketManager :=
    { name := nm, endpoints := { bind := [], connect := c, unbind := [], disconnect := d },
      subscriptions := subs, emitQueue := [], recvQueue := [],
      emitTask := false, recvTask := false, socketClosed := sc,
      ops := ops ++ b.map SocketOp.unbindOp }
    with hB
  have h2 : unlinkSeq smB .disconnect c =
      ({ smB with
          ops := smB.ops ++ c.map SocketOp.disconnectOp
          endpoints := { smB.endpoints with disconnect := [] } }, none) :=
    unlinkSeq_disconnect_ok c smB hcnd (fun x hx => hx)
      (fun x => ⟨fun hx => hdc x hx, fun hx => hcd x hx⟩) hdnd
  simp only [SocketManager.terminate, stop_true_eq, hA, hB] at h1 h2 ⊢
  simp only [h1, andThen, clearKey, h2, unlinkSeq]

end OpenCore

namespace OpenCore

/-- `AbstractActor` state: its name and the `socket_managers` dictionary,
modelled as an insertion-ordered association list with unique keys. -/
structure Actor where
  name : String
  socketManagers : List (String × SocketManager)
  deriving DecidableEq, Repr

/-- `self.socket_managers[name]` lookup. -/
def lookupManager (a : Actor) (n : String) : Option SocketManager :=
  (a.socketManagers.find? (fun p => p.1 == n)).map Prod.snd

/-- `AbstractActor.stop_socket_managers`: stop every owned manager with
`stop(empty_queue=False)` — the queues are deliberately not emptied. -/
def Actor.stop_socket_managers (a : Actor) : Actor :=
  { a with socketManagers :=
      a.socketManagers.map (fun p => (p.1, p.2.stop false)) }

/-- In-place mutation of the manager stored under `n` (the Python code
mutates the object obtained from the dictionary). -/
def Actor.withManager (a : Actor) (n : String)
    (f : SocketManager → SocketManager) : Actor :=
  { a with socketManagers :=
      a.socketManagers.map (fun p => if p.1 == n then (p.1, f p.2) else p) }

/-- `AbstractActor.remove_socket_manager`: look the manager up (a missing
name raises `KeyError`), `terminate` it, and delete the entry; when
`terminate` raises, the entry is kept with the partially terminated
manager and the exception propagates. -/
def Actor.remove_socket_manager (a : Actor) (n : String) :
    Actor × Option SMError :=
  match lookupManager a n with
  | none => (a, some .keyError)
  | some sm =>
    match sm.terminate with
    | (_, none) =>
      ({ a with socketManagers :=
          a.socketManagers.filter (fun p => p.1 != n) }, none)
    | (sm1, some err) => (a.withManager n (fun _ => sm1), some err)

theorem lookup_stop_socket_managers (a : Actor) (n : String) :
    lookupManager (a.stop_socket_managers) n
      = (lookupManager a n).map (fun sm => sm.stop false) := by
  obtain ⟨an, l⟩ := a
  simp only [lookupManager, Actor.stop_socket_managers, List.find?_map,
    Option.map_map]
  rfl

theorem lookup_withManager (a : Actor) (n : String)
    (f : SocketManager → SocketManager) :
    lookupManager (a.withManager n f) n = (lookupManager a n).map f := by
  obtain ⟨an, l⟩ := a
  simp only [lookupManager, Actor.withManager]
  induction l with
  | nil => rfl
  | cons p rest ih =>
    simp only [List.map_cons, List.find?_cons]
    cases hp : (p.1 == n)
    · simp only [hp, Bool.false_eq_true, if_false, List.find?_cons]
      simpa [hp] using ih
    · simp [hp]

theorem lookup_filter_out (a : Actor) (n : String) :
    lookupManager
      ({ a with socketManagers :=
          a.socketManagers.filter (fun p => p.1 != n) }) n = none := by
  obtain ⟨an, l⟩ := a
  simp only [lookupManager]
  induction l with
  | nil => rfl
  | cons p rest ih =>
    simp only [List.filter_cons]
    cases hp : (p.1 == n) <;> simp [bne, hp, List.find?_cons, ih]

end OpenCore

namespace OpenCore

/-- A manager holding one queued-but-unsent frame, owned by `c4Actor`. -/
def c4Manager : SocketManager :=
  { SocketManager.init ("sm") with emitQueue := [([1], [2])] }

/-- A concrete actor owning `c4Manager` under the name `sm`. -/
def c4Actor : Actor :=
  { name := "actor", socketManagers := [("sm", c4Manager)] }

/-- C4 counterexample: the actor-level stop-all does not discard queues.
For the concrete actor whose single manager has one frame in its emit
queue, after `stop_socket_managers` the manager is stopped with
`empty_queue=False` and its emit queue still holds that frame, refuting
the claim that both queues are empty afterwards. -/
theorem stop_all_keeps_queued_frame :
    (lookupManager (Actor.stop_socket_managers c4Actor) ("sm")).map
        SocketManager.emitQueue = some [([1], [2])] ∧
    ([([1], [2])] : List Frame) ≠ [] := by
  decide

/-- C4 (amended): `stop_socket_managers` applies `stop(empty_queue=False)`
to every owned manager: both pipelines are stopped, but the emit and
receive queues of each manager are preserved exactly, never discarded. -/
theorem stop_all_stops_tasks_and_preserves_queues
    (a : Actor) (n : String) (sm : SocketManager)
    (h : lookupManager a n = some sm) :
    lookupManager (a.stop_socket_managers) n = some (sm.stop false) ∧
    (sm.stop false).emitQueue = sm.emitQueue ∧
    (sm.stop false).recvQueue = sm.recvQueue ∧
    (sm.stop false).is_emitting = false ∧
    (sm.stop false).is_receiving = false := by
  refine ⟨by rw [lookup_stop_socket_managers, h]; rfl, ?_, ?_, ?_, ?_⟩ <;>
    rw [stop_false_eq]  <;> rfl

/-- Witness for C4 (amended): applying the theorem to the concrete actor
`c4Actor` and its manager. -/
theorem stop_all_stops_tasks_and_preserves_queues_witness :
    lookupManager c4Actor ("sm") = some c4Manager ∧
    lookupManager (c4Actor.stop_socket_managers) ("sm")
      = some (c4Manager.stop false) :=
  ⟨by decide,
    (stop_all_stops_tasks_and_preserves_queues c4Actor ("sm") c4Manager
      (by decide)).1⟩

theorem boot_tasks (sm : SocketManager)
    (hb : sm.endpoints.bind ≠ []) (hc : sm.endpoints.connect ≠ []) :
    sm.boot = { sm with emitTask := true, recvTask := true } := by
  obtain ⟨nm, eps, subs, emq, rq, et, rt, sc, ops⟩ := sm
  simp only at hb hc
  simp only [SocketManager.boot, SocketManager.is_emitting,
    SocketManager.is_receiving]
  cases et <;> cases rt <;> simp [hb, hc]

end OpenCore

namespace OpenCore

/-- C8: on a manager with at least one bind link and at least one connect
link (with mirrored staging sets), `boot()` makes both `is_emitting` and
`is_receiving` hold; `stop_emitting()` then flips only `is_emitting` to
false; and removing the manager from its owning actor (which terminates
it) leaves the actor's `socket_managers` mapping without that name. -/
theorem boot_stop_emitting_terminate_lifecycle
    (a : Actor) (n : String) (sm : SocketManager)
    (hlook : lookupManager a n = some sm)
    (hb : sm.endpoints.bind ≠ []) (hc : sm.endpoints.connect ≠ [])
    (hm : sm.mirrored) :
    ((sm.boot).is_emitting = true ∧ (sm.boot).is_receiving = true) ∧
    (((sm.boot).stop_emitting).is_emitting = false ∧
      ((sm.boot).stop_emitting).is_receiving = true) ∧
    ((a.withManager n
        (fun _ => (sm.boot).stop_emitting)).remove_socket_manager n).2
      = none ∧
    lookupManager
      ((a.withManager n
        (fun _ => (sm.boot).stop_emitting)).remove_socket_manager n).1 n
      = none := by
  have hboot := boot_tasks sm hb hc
  have hS : (sm.boot).stop_emitting
      = { sm with emitTask := false, recvTask := true } := by
    rw [hboot]; rfl
  have hterm := terminate_ok ({ sm with emitTask := false, recvTask := true }) hm
  refine ⟨⟨by rw [hboot]; rfl, by rw [hboot]; rfl⟩,
    ⟨by rw [hS]; rfl, by rw [hS]; rfl⟩, ?_, ?_⟩
  · simp only [Actor.remove_socket_manager, lookup_withManager, hlook,
      Option.map_some', hS, hterm]
  · simp only [Actor.remove_socket_manager, lookup_withManager, hlook,
      Option.map_some', hS, hterm]
    exact lookup_filter_out _ n

/-- A manager with one bind link and one connect link, both staged, owned
by `c8Actor`. -/
def c8Manager : SocketManager :=
  { SocketManager.init ("sm") with
      endpoints := { bind := ["inproc://x"], connect := ["inproc://y"],
                     unbind := ["inproc://x"], disconnect := ["inproc://y"] } }

/-- A concrete actor owning `c8Manager` under the name `sm`. -/
def c8Actor : Actor :=
  { name := "actor", socketManagers := [("sm", c8Manager)] }

/-- Witness for C8: the hypotheses hold at the concrete actor `c8Actor`
and its manager, and the removal leaves the mapping without the name. -/
theorem boot_stop_emitting_terminate_lifecycle_witness :
    lookupManager c8Actor ("sm") = some c8Manager ∧
    c8Manager.endpoints.bind ≠ [] ∧
    c8Manager.endpoints.connect ≠ [] ∧
    c8Manager.mirrored ∧
    lookupManager
      ((c8Actor.withManager ("sm")
        (fun _ => (c8Manager.boot).stop_emitting)).remove_socket_manager
          ("sm")).1 ("sm") = none :=
  ⟨by decide, by decide, by decide, by decide,
    (boot_stop_emitting_terminate_lifecycle c8Actor ("sm") c8Manager
      (by decide) (by decide) (by decide) (by decide)).2.2.2⟩

end OpenCore

namespace OpenCore

/-- `SocketManager._background_recv`, run over the finite sequence of
multi-part frames the transport delivers before cancellation: each frame
is destructured as `_, signal = parts` (exactly two parts), the second
part is enqueued; a frame with any other number of parts raises
`ValueError` inside the loop, which the `except` clause reports, and the
pipeline exits, processing none of the remaining frames. Returns the
receive queue contents and whether the pipeline exited on a fault. -/
def backgroundRecv (frames : List (List Bytes)) (queue : List Bytes) :
    List Bytes × Bool :=
  match frames with
  | [] => (queue, false)
  | f :: rest =>
    match f with
    | [_, signal] => backgroundRecv rest (queue ++ [signal])
    | _ => (queue, true)

theorem backgroundRecv_eq (frames : List (List Bytes)) :
    ∀ queue : List Bytes,
      backgroundRecv frames queue =
        (queue ++ (frames.takeWhile (fun f => f.length == 2)).map
            (fun f => f.getD 1 []),
          !frames.all (fun f => f.length == 2)) := by
  induction frames with
  | nil => intro queue; simp [backgroundRecv]
  | cons f rest ih =>
    intro queue
    rcases f with _ | ⟨a, _ | ⟨b, _ | ⟨c, t⟩⟩⟩ <;>
      simp [backgroundRecv, List.takeWhile_cons, ih, List.append_assoc]

/-- C10: the receive pipeline enqueues exactly the second part of each
two-part frame, in order, up to the first frame whose number of parts is
not two; it exits with a reported fault precisely when such a frame
occurs, and nothing past that frame (nor from it) is ever enqueued. Every
enqueued payload is the second part of an exactly-two-part frame. -/
theorem background_recv_two_part_frames_only (frames : List (List Bytes)) :
    (backgroundRecv frames []).1
      = (frames.takeWhile (fun f => f.length == 2)).map (fun f => f.getD 1 []) ∧
    ((backgroundRecv frames []).2
      = !frames.all (fun f => f.length == 2)) ∧
    (∀ x ∈ (backgroundRecv frames []).1,
      ∃ f ∈ frames, f.length = 2 ∧ x = f.getD 1 []) := by
  refine ⟨by simp [backgroundRecv_eq], by simp [backgroundRecv_eq], ?_⟩
  intro x hx
  rw [backgroundRecv_eq] at hx
  simp only [List.nil_append, List.mem_map] at hx
  obtain ⟨f, hf, hfx⟩ := hx
  refine ⟨f, (List.takeWhile_sublist _).subset hf, ?_, hfx.symm⟩
  have := List.mem_takeWhile_imp hf
  simpa using this

end OpenCore

namespace OpenCore

mutual
/-- Python values of the serializable domain exercised by the
serializers: integers, strings, lists, string-keyed dictionaries and
`None`. Lists and dictionaries are spelled out as mutual inductives so
that all functions over them are structural and kernel-reducible. -/
inductive PyValue where
  | int (n : Int)
  | str (s : String)
  | pynone
  | list (xs : PyList)
  | dict (xs : PyDict)
  deriving Repr

/-- A Python list of `PyValue`. -/
inductive PyList where
  | nil
  | cons (head : PyValue) (tail : PyList)
  deriving Repr

/-- A Python dict with string keys, in insertion order. -/
inductive PyDict where
  | nil
  | cons (key : String) (val : PyValue) (tail : PyDict)
  deriving Repr
end

/-- Result of a serializer `decode` call: a value, the Python `None`
sentinel returned from an exception handler, or a raised exception. -/
inductive DecodeOutcome where
  | ok (v : PyValue)
  | sentinel
  | error
  deriving Repr

/-- UTF-8 encoding of one character. -/
def utf8EncodeChar (c : Char) : Bytes :=
  let n := c.toNat
  if n < 0x80 then [n]
  else if n < 0x800 then [0xC0 + n / 64, 0x80 + n % 64]
  else if n < 0x10000 then
    [0xE0 + n / 4096, 0x80 + n / 64 % 64, 0x80 + n % 64]
  else
    [0xF0 + n / 262144, 0x80 + n / 4096 % 64, 0x80 + n / 64 % 64, 0x80 + n % 64]

/-- UTF-8 encoding of a character list. -/
def utf8EncodeChars : List Char → Bytes
  | [] => []
  | c :: rest => utf8EncodeChar c ++ utf8EncodeChars rest

/-- UTF-8 decoding; `none` on any ill-formed byte sequence. -/
def utf8Decode : Bytes → Option (List Char)
  | [] => some []
  | b :: rest =>
    if b < 0x80 then (utf8Decode rest).map (Char.ofNat b :: ·)
    else if b < 0xC2 then none
    else if b < 0xE0 then
      match rest with
      | c1 :: rest2 =>
        if 0x80 ≤ c1 ∧ c1 < 0xC0 then
          (utf8Decode rest2).map (Char.ofNat ((b - 0xC0) * 64 + (c1 - 0x80)) :: ·)
        else none
      | [] => none
    else if b < 0xF0 then
      match rest with
      | c1 :: c2 :: rest2 =>
        if (0x80 ≤ c1 ∧ c1 < 0xC0) ∧ (0x80 ≤ c2 ∧ c2 < 0xC0) then
          let v := (b - 0xE0) * 4096 + (c1 - 0x80) * 64 + (c2 - 0x80)
          if 0x800 ≤ v ∧ ¬ (0xD800 ≤ v ∧ v < 0xE000) then
            (utf8Decode rest2).map (Char.ofNat v :: ·)
          else none
        else none
      | _ => none
    else if b < 0xF5 then
      match rest with
      | c1 :: c2 :: c3 :: rest2 =>
        if (0x80 ≤ c1 ∧ c1 < 0xC0) ∧ (0x80 ≤ c2 ∧ c2 < 0xC0) ∧
            (0x80 ≤ c3 ∧ c3 < 0xC0) then
          let v := (b - 0xF0) * 262144 + (c1 - 0x80) * 4096 +
            (c2 - 0x80) * 64 + (c3 - 0x80)
          if 0x10000 ≤ v ∧ v < 0x110000 then
            (utf8Decode rest2).map (Char.ofNat v :: ·)
          else none
        else none
      | _ => none
    else none

/-- Decimal digit to character. -/
def digitChar (d : Nat) : Char := Char.ofNat (48 + d)

/-- Big-endian style decimal rendering helper, fuelled structurally. -/
def natCharsAux : Nat → Nat → List Char → List Char
  | 0, _, acc => acc
  | fuel + 1, n, acc =>
    if n < 10 then digitChar n :: acc
    else natCharsAux fuel (n / 10) (digitChar (n % 10) :: acc)

/-- Decimal rendering of a natural number. -/
def natChars (n : Nat) : List Char := natCharsAux (n + 1) n []

/-- Decimal rendering of an integer. -/
def intChars (n : Int) : List Char :=
  if n < 0 then '-' :: natChars n.natAbs else natChars n.toNat

/-- Split off the first `n` bytes, failing when fewer are available. -/
def readN : Nat → Bytes → Option (Bytes × Bytes)
  | 0, bs => some ([], bs)
  | _ + 1, [] => none
  | n + 1, b :: rest => (readN n rest).map (fun p => (b :: p.1, p.2))

end OpenCore

namespace OpenCore

/-- Hexadecimal digit character (lowercase, as msgspec renders). -/
def hexChar (d : Nat) : Char :=
  if d < 10 then Char.ofNat (48 + d) else Char.ofNat (87 + d)

/-- JSON escaping of one character, compact style: the two mandatory
escapes, the common control-character shorthands, and `\u00XX` for the
remaining control characters; everything else verbatim. -/
def jsonEscapeChar (c : Char) : List Char :=
  if c = '"' then ['\\', '"']
  else if c = '\\' then ['\\', '\\']
  else if c = Char.ofNat 8 then ['\\', 'b']
  else if c = Char.ofNat 9 then ['\\', 't']
  else if c = Char.ofNat 10 then ['\\', 'n']
  else if c = Char.ofNat 12 then ['\\', 'f']
  else if c = Char.ofNat 13 then ['\\', 'r']
  else if c.toNat < 32 then
    ['\\', 'u', '0', '0', hexChar (c.toNat / 16), hexChar (c.toNat % 16)]
  else [c]

/-- JSON escaping of a character list. -/
def jsonEscape : List Char → List Char
  | [] => []
  | c :: rest => jsonEscapeChar c ++ jsonEscape rest

mutual
/-- The msgspec.json encoder on the modelled domain: canonical compact
layout, no whitespace, object keys in insertion order. -/
def jsonRender : PyValue → List Char
  | .int n => intChars n
  | .str s => '"' :: jsonEscape s.data ++ ['"']
  | .pynone => ['n', 'u', 'l', 'l']
  | .list xs => '[' :: jsonRenderItems xs ++ [']']
  | .dict xs => '\x7b' :: jsonRenderPairs xs ++ ['\x7d']

/-- Comma-separated rendering of list elements. -/
def jsonRenderItems : PyList → List Char
  | .nil => []
  | .cons h t => jsonRender h ++ jsonRenderItemsRest t

/-- Remaining list elements, each preceded by a comma. -/
def jsonRenderItemsRest : PyList → List Char
  | .nil => []
  | .cons h t => ',' :: jsonRender h ++ jsonRenderItemsRest t

/-- Comma-separated rendering of object members. -/
def jsonRenderPairs : PyDict → List Char
  | .nil => []
  | .cons k v t =>
    '"' :: jsonEscape k.data ++ '"' :: ':' :: jsonRender v ++ jsonRenderPairsRest t

/-- Remaining object members, each preceded by a comma. -/
def jsonRenderPairsRest : PyDict → List Char
  | .nil => []
  | .cons k v t =>
    ',' :: '"' :: jsonEscape k.data ++ '"' :: ':' :: jsonRender v
      ++ jsonRenderPairsRest t
end

/-- Maximal run of decimal digits, accumulating their value. -/
def parseNatAux : List Char → Nat → Nat × List Char
  | [], acc => (acc, [])
  | c :: rest, acc =>
    if c.isDigit then parseNatAux rest (acc * 10 + (c.toNat - 48))
    else (acc, c :: rest)

/-- At least one decimal digit, maximal munch. -/
def parseNatChars (cs : List Char) : Option (Nat × List Char) :=
  match cs with
  | [] => none
  | c :: rest =>
    if c.isDigit then some (parseNatAux rest (c.toNat - 48)) else none

/-- Value of one hexadecimal digit character. -/
def hexVal (c : Char) : Option Nat :=
  if 48 ≤ c.toNat ∧ c.toNat ≤ 57 then some (c.toNat - 48)
  else if 97 ≤ c.toNat ∧ c.toNat ≤ 102 then some (c.toNat - 87)
  else if 65 ≤ c.toNat ∧ c.toNat ≤ 70 then some (c.toNat - 55)
  else none

/-- Single-character JSON escapes. -/
def jsonUnescapeChar (e : Char) : Option Char :=
  if e = '"' then some '"'
  else if e = '\\' then some '\\'
  else if e = '/' then some '/'
  else if e = 'b' then some (Char.ofNat 8)
  else if e = 't' then some (Char.ofNat 9)
  else if e = 'n' then some (Char.ofNat 10)
  else if e = 'f' then some (Char.ofNat 12)
  else if e = 'r' then some (Char.ofNat 13)
  else none

/-- Body of a JSON string after the opening quote: unescapes up to the
closing quote, rejecting unescaped control characters and bad escapes. -/
def parseJsonStr : List Char → List Char → Option (List Char × List Char)
  | [], _ => none
  | c :: rest, acc =>
    if c = '"' then some (acc.reverse, rest)
    else if c = '\\' then
      match rest with
      | [] => none
      | e :: rest2 =>
        if e = 'u' then
          match rest2 with
          | h1 :: h2 :: h3 :: h4 :: rest3 =>
            match hexVal h1, hexVal h2, hexVal h3, hexVal h4 with
            | some a, some b, some c2, some d =>
              parseJsonStr rest3 (Char.ofNat (((a * 16 + b) * 16 + c2) * 16 + d) :: acc)
            | _, _, _, _ => none
          | _ => none
        else
          match jsonUnescapeChar e with
          | some ch => parseJsonStr rest2 (ch :: acc)
          | none => none
    else if c.toNat < 32 then none
    else parseJsonStr rest (c :: acc)

mutual
/-- Fuelled recursive-descent parser for the compact JSON fragment the
model covers (null, integers, strings, arrays, objects). -/
def parseJson : Nat → List Char → Option (PyValue × List Char)
  | 0, _ => none
  | _ + 1, [] => none
  | fuel + 1, c :: rest =>
    if c = 'n' then
      match rest with
      | 'u' :: 'l' :: 'l' :: r => some (.pynone, r)
      | _ => none
    else if c = '"' then
      (parseJsonStr rest []).map (fun p => (.str (String.mk p.1), p.2))
    else if c = '-' then
      (parseNatChars rest).map (fun p => (.int (-(p.1 : Int)), p.2))
    else if c.isDigit then
      (parseNatChars (c :: rest)).map (fun p => (.int (p.1 : Int), p.2))
    else if c = '[' then
      match rest with
      | ']' :: r => some (.list .nil, r)
      | _ => (parseJsonItems fuel rest).map (fun p => (.list p.1, p.2))
    else if c = '\x7b' then
      match rest with
      | '\x7d' :: r => some (.dict .nil, r)
      | _ => (parseJsonPairs fuel rest).map (fun p => (.dict p.1, p.2))
    else none

/-- One or more comma-separated array elements then `]`. -/
def parseJsonItems : Nat → List Char → Option (PyList × List Char)
  | 0, _ => none
  | fuel + 1, cs =>
    match parseJson fuel cs with
    | none => none
    | some (v, rest) =>
      match rest with
      | ',' :: r2 => (parseJsonItems fuel r2).map (fun p => (.cons v p.1, p.2))
      | ']' :: r2 => some (.cons v .nil, r2)
      | _ => none

/-- One or more comma-separated object members then the closing brace. -/
def parseJsonPairs : Nat → List Char → Option (PyDict × List Char)
  | 0, _ => none
  | fuel + 1, cs =>
    match cs with
    | '"' :: r =>
      match parseJsonStr r [] with
      | none => none
      | some (kcs, r2) =>
        match r2 with
        | ':' :: r3 =>
          match parseJson fuel r3 with
          | none => none
          | some (v, r4) =>
            match r4 with
            | ',' :: r5 =>
              (parseJsonPairs fuel r5).map
                (fun p => (.cons (String.mk kcs) v p.1, p.2))
            | '\x7d' :: r5 => some (.cons (String.mk kcs) v .nil, r5)
            | _ => none
        | _ => none
    | _ => none
end

/-- JSON insignificant whitespace. -/
def isJsonWs (c : Char) : Bool :=
  c = ' ' ∨ c = Char.ofNat 9 ∨ c = Char.ofNat 10 ∨ c = Char.ofNat 13

/-- The msgspec.json decoder on the modelled domain: UTF-8 decode, parse
one value surrounded by optional whitespace, reject trailing content;
`none` models a raised `msgspec.DecodeError`. -/
def jsonParseBytes (bs : Bytes) : Option PyValue :=
  match utf8Decode bs with
  | none => none
  | some cs =>
    match parseJson (2 * cs.length + 4) (cs.dropWhile isJsonWs) with
    | some (v, rest) => if rest.dropWhile isJsonWs = [] then some v else none
    | none => none

/-- `Json.encode`: serialize via the msgspec JSON encoder; never fails on
the modelled domain. -/
def Json.encode (v : PyValue) : Bytes := utf8EncodeChars (jsonRender v)

/-- `Json.decode`: msgspec JSON decode wrapped in
`try ... except DecodeError: return None` — malformed bytes yield the
`None` sentinel rather than an exception. -/
def Json.decode (d : Bytes) : DecodeOutcome :=
  match jsonParseBytes d with
  | some v => .ok v
  | none => .sentinel

end OpenCore

namespace OpenCore

/-- Big-endian bytes, 2 wide. -/
def be16 (n : Nat) : Bytes := [n / 256 % 256, n % 256]

/-- Big-endian bytes, 4 wide. -/
def be32 (n : Nat) : Bytes :=
  [n / 16777216 % 256, n / 65536 % 256, n / 256 % 256, n % 256]

/-- Big-endian bytes, 8 wide. -/
def be64 (n : Nat) : Bytes := be32 (n / 4294967296) ++ be32 n

/-- Smallest msgpack representation of an integer (the modelled domain is
the 64-bit range the library accepts). -/
def mpEncInt (n : Int) : Bytes :=
  if 0 ≤ n then
    let m := n.toNat
    if m < 128 then [m]
    else if m < 256 then [0xcc, m]
    else if m < 65536 then 0xcd :: be16 m
    else if m < 4294967296 then 0xce :: be32 m
    else 0xcf :: be64 m
  else
    if -32 ≤ n then [(n + 256).toNat]
    else if -128 ≤ n then [0xd0, (n + 256).toNat]
    else if -32768 ≤ n then 0xd1 :: be16 (n + 65536).toNat
    else if -2147483648 ≤ n then 0xd2 :: be32 (n + 4294967296).toNat
    else 0xd3 :: be64 (n + 18446744073709551616).toNat

/-- msgpack string header for a given byte length. -/
def mpStrHeader (len : Nat) : Bytes :=
  if len < 32 then [0xa0 + len]
  else if len < 256 then [0xd9, len]
  else if len < 65536 then 0xda :: be16 len
  else 0xdb :: be32 len

/-- msgpack array header. -/
def mpArrHeader (len : Nat) : Bytes :=
  if len < 16 then [0x90 + len]
  else if len < 65536 then 0xdc :: be16 len
  else 0xdd :: be32 len

/-- msgpack map header. -/
def mpMapHeader (len : Nat) : Bytes :=
  if len < 16 then [0x80 + len]
  else if len < 65536 then 0xde :: be16 len
  else 0xdf :: be32 len

/-- Length of a modelled Python list. -/
def pyListLength : PyList → Nat
  | .nil => 0
  | .cons _ t => pyListLength t + 1

/-- Length of a modelled Python dict. -/
def pyDictLength : PyDict → Nat
  | .nil => 0
  | .cons _ _ t => pyDictLength t + 1

mutual
/-- The msgspec.msgpack encoder on the modelled domain. -/
def mpEnc : PyValue → Bytes
  | .int n => mpEncInt n
  | .str s => mpStrHeader (utf8EncodeChars s.data).length ++ utf8EncodeChars s.data
  | .pynone => [0xc0]
  | .list xs => mpArrHeader (pyListLength xs) ++ mpEncItems xs
  | .dict xs => mpMapHeader (pyDictLength xs) ++ mpEncPairs xs

/-- Concatenated encodings of list elements. -/
def mpEncItems : PyList → Bytes
  | .nil => []
  | .cons h t => mpEnc h ++ mpEncItems t

/-- Concatenated key/value encodings of dict members. -/
def mpEncPairs : PyDict → Bytes
  | .nil => []
  | .cons k v t =>
    mpStrHeader (utf8EncodeChars k.data).length ++ utf8EncodeChars k.data
      ++ mpEnc v ++ mpEncPairs t
end

/-- Big-endian value of a byte list. -/
def beNat : Bytes → Nat
  | [] => 0
  | b :: rest => b * 256 ^ rest.length + beNat rest

/-- Read a UTF-8 string of `len` bytes. -/
def mpReadStr (len : Nat) (bs : Bytes) : Option (PyValue × Bytes) :=
  match readN len bs with
  | none => none
  | some (u, rest) =>
    match utf8Decode u with
    | some cs => some (.str (String.mk cs), rest)
    | none => none

mutual
/-- Fuelled msgpack parser on the modelled domain (`nil`, 64-bit
integers, strings, arrays, string-keyed maps). -/
def mpDec : Nat → Bytes → Option (PyValue × Bytes)
  | 0, _ => none
  | _ + 1, [] => none
  | fuel + 1, b :: rest =>
    if b < 0x80 then some (.int b, rest)
    else if 0xe0 ≤ b then some (.int ((b : Int) - 256), rest)
    else if 0xa0 ≤ b ∧ b < 0xc0 then mpReadStr (b - 0xa0) rest
    else if b = 0xc0 then some (.pynone, rest)
    else if b = 0xcc then
      match rest with
      | x :: r => some (.int x, r)
      | [] => none
    else if b = 0xcd then
      match readN 2 rest with
      | some (ds, r) => some (.int (beNat ds), r)
      | none => none
    else if b = 0xce then
      match readN 4 rest with
      | some (ds, r) => some (.int (beNat ds), r)
      | none => none
    else if b = 0xcf then
      match readN 8 rest with
      | some (ds, r) => some (.int (beNat ds), r)
      | none => none
    else if b = 0xd0 then
      match rest with
      | x :: r =>
        some (.int (if x < 128 then (x : Int) else (x : Int) - 256), r)
      | [] => none
    else if b = 0xd1 then
      match readN 2 rest with
      | some (ds, r) =>
        some (.int (if beNat ds < 32768 then (beNat ds : Int)
          else (beNat ds : Int) - 65536), r)
      | none => none
    else if b = 0xd2 then
      match readN 4 rest with
      | some (ds, r) =>
        some (.int (if beNat ds < 2147483648 then (beNat ds : Int)
          else (beNat ds : Int) - 4294967296), r)
      | none => none
    else if b = 0xd3 then
      match readN 8 rest with
      | some (ds, r) =>
        some (.int (if beNat ds < 9223372036854775808 then (beNat ds : Int)
          else (beNat ds : Int) - 18446744073709551616), r)
      | none => none
    else if b = 0xd9 then
      match rest with
      | len :: r => mpReadStr len r
      | [] => none
    else if b = 0xda then
      match readN 2 rest with
      | some (ds, r) => mpReadStr (beNat ds) r
      | none => none
    else if b = 0xdb then
      match readN 4 rest with
      | some (ds, r) => mpReadStr (beNat ds) r
      | none => none
    else if 0x90 ≤ b ∧ b < 0xa0 then
      (mpDecItems fuel (b - 0x90) rest).map (fun p => (.list p.1, p.2))
    else if b = 0xdc then
      match readN 2 rest with
      | some (ds, r) =>
        (mpDecItems fuel (beNat ds) r).map (fun p => (.list p.1, p.2))
      | none => none
    else if b = 0xdd then
      match readN 4 rest with
      | some (ds, r) =>
        (mpDecItems fuel (beNat ds) r).map (fun p => (.list p.1, p.2))
      | none => none
    else if b < 0x90 then
      (mpDecPairs fuel (b - 0x80) rest).map (fun p => (.dict p.1, p.2))
    else if b = 0xde then
      match readN 2 rest with
      | some (ds, r) =>
        (mpDecPairs fuel (beNat ds) r).map (fun p => (.dict p.1, p.2))
      | none => none
    else if b = 0xdf then
      match readN 4 rest with
      | some (ds, r) =>
        (mpDecPairs fuel (beNat ds) r).map (fun p => (.dict p.1, p.2))
      | none => none
    else none

/-- Parse `n` consecutive array elements. -/
def mpDecItems : Nat → Nat → Bytes → Option (PyList × Bytes)
  | 0, _, _ => none
  | _ + 1, 0, bs => some (.nil, bs)
  | fuel + 1, n + 1, bs =>
    match mpDec fuel bs with
    | none => none
    | some (v, rest) =>
      (mpDecItems fuel n rest).map (fun p => (.cons v p.1, p.2))

/-- Parse `n` consecutive string-keyed map members. -/
def mpDecPairs : Nat → Nat → Bytes → Option (PyDict × Bytes)
  | 0, _, _ => none
  | _ + 1, 0, bs => some (.nil, bs)
  | fuel + 1, n + 1, bs =>
    match mpDec fuel bs with
    | none => none
    | some (.str k, rest) =>
      match mpDec fuel rest with
      | none => none
      | some (v, rest2) =>
        (mpDecPairs fuel n rest2).map (fun p => (.cons k v p.1, p.2))
    | some _ => none
end

/-- `MessagePack.encode`: serialize via the msgspec msgpack encoder. -/
def MessagePack.encode (v : PyValue) : Bytes := mpEnc v

/-- `MessagePack.decode`: msgspec msgpack decode with no exception
handler — malformed bytes (including truncated input and trailing data)
raise a decode error. -/
def MessagePack.decode (d : Bytes) : DecodeOutcome :=
  match mpDec (2 * d.length + 4) d with
  | some (v, []) => .ok v
  | _ => .error

end OpenCore

namespace OpenCore

/-- Little-endian bytes, 2 wide. -/
def le16 (n : Nat) : Bytes := [n % 256, n / 256 % 256]

/-- Little-endian bytes, 4 wide. -/
def le32 (n : Nat) : Bytes :=
  [n % 256, n / 256 % 256, n / 65536 % 256, n / 16777216 % 256]

/-- Little-endian bytes, 8 wide. -/
def le64 (n : Nat) : Bytes := le32 n ++ le32 (n / 4294967296)

/-- Minimal little-endian base-256 digits of a positive number. -/
def leDigits : Nat → Nat → Bytes
  | 0, _ => []
  | fuel + 1, m => if m < 256 then [m] else m % 256 :: leDigits fuel (m / 256)

/-- Width in bytes needed to hold a negative number in two's complement. -/
def negWidth : Nat → Int → Nat → Nat
  | 0, _, k => k
  | fuel + 1, n, k =>
    if -(2 ^ (8 * k - 1) : Int) ≤ n then k else negWidth fuel n (k + 1)

/-- The `pickle.encode_long` minimal two's-complement little-endian
encoding used by the `LONG1` opcode. -/
def pkLongBytes (n : Int) : Bytes :=
  if n = 0 then []
  else if 0 < n then
    let ds := leDigits (n.toNat + 1) n.toNat
    if ds.getLast? = some 0 then ds
    else if (ds.getLastD 0) ≥ 128 then ds ++ [0] else ds
  else
    let k := negWidth 64 n 1
    (le64 (n + (2 ^ (8 * k) : Int)).toNat).take k

/-- Opcodes for one integer, as `pickle.Pickler.save_long` emits them:
`BININT1`, `BININT2`, `BININT` or `LONG1`. -/
def pkInt (n : Int) : Bytes :=
  if 0 ≤ n then
    let m := n.toNat
    if m < 256 then [0x4b, m]
    else if m < 65536 then 0x4d :: le16 m
    else if m < 2147483648 then 0x4a :: le32 m
    else 0x8a :: (pkLongBytes n).length :: pkLongBytes n
  else
    if -2147483648 ≤ n then 0x4a :: le32 (n + 4294967296).toNat
    else 0x8a :: (pkLongBytes n).length :: pkLongBytes n

/-- Opcodes for one string: `SHORT_BINUNICODE` or `BINUNICODE`, followed
by `MEMOIZE` at the call sites. -/
def pkStrOp (u : Bytes) : Bytes :=
  if u.length < 256 then 0x8c :: u.length :: u
  else 0x58 :: le32 u.length ++ u

mutual
/-- Opcode body for one value, as the protocol-5 pickler emits it:
integers via the `BININT` family, strings memoized, lists and dicts
built empty, memoized, then filled with `APPEND`/`APPENDS` and
`SETITEM`/`SETITEMS`. -/
def pkBody : PyValue → Bytes
  | .int n => pkInt n
  | .str s => pkStrOp (utf8EncodeChars s.data) ++ [0x94]
  | .pynone => [0x4e]
  | .list xs =>
    [0x5d, 0x94] ++
      (match xs with
      | .nil => []
      | .cons h t =>
        match t with
        | .nil => pkBody h ++ [0x61]
        | .cons h2 t2 => 0x28 :: pkBody h ++ pkBody h2 ++ pkSeqItems t2 ++ [0x65])
  | .dict xs =>
    [0x7d, 0x94] ++
      (match xs with
      | .nil => []
      | .cons k v t =>
        match t with
        | .nil => pkStrOp (utf8EncodeChars k.data) ++ [0x94] ++ pkBody v ++ [0x73]
        | .cons k2 v2 t2 =>
          0x28 :: pkStrOp (utf8EncodeChars k.data) ++ [0x94] ++ pkBody v
            ++ pkStrOp (utf8EncodeChars k2.data) ++ [0x94] ++ pkBody v2
            ++ pkSeqPairs t2 ++ [0x75])

/-- Remaining batched list elements. -/
def pkSeqItems : PyList → Bytes
  | .nil => []
  | .cons h t => pkBody h ++ pkSeqItems t

/-- Remaining batched dict members. -/
def pkSeqPairs : PyDict → Bytes
  | .nil => []
  | .cons k v t =>
    pkStrOp (utf8EncodeChars k.data) ++ [0x94] ++ pkBody v ++ pkSeqPairs t
end

/-- `Pickle.encode`: `pickle.dumps(obj, protocol=HIGHEST_PROTOCOL)`:
the protocol-5 header, then the opcode stream ending in `STOP`, framed
when it reaches the 4-byte framing threshold. -/
def Pickle.encode (v : PyValue) : Bytes :=
  [0x80, 0x05] ++
    (if (pkBody v ++ [0x2e]).length < 4 then pkBody v ++ [0x2e]
     else 0x95 :: le64 (pkBody v ++ [0x2e]).length ++ (pkBody v ++ [0x2e]))

/-- Unpickler stack entries: values and the `MARK` sentinel. -/
inductive PkItem where
  | val (v : PyValue)
  | mark
  deriving Repr

/-- Append one element at the end of a modelled list. -/
def pyListAppend : PyList → PyValue → PyList
  | .nil, v => .cons v .nil
  | .cons h t, v => .cons h (pyListAppend t v)

/-- Append a batch of elements at the end of a modelled list. -/
def pyListExtend : PyList → List PyValue → PyList
  | xs, [] => xs
  | xs, v :: vs => pyListExtend (pyListAppend xs v) vs

/-- Set one key at the end of a modelled dict. -/
def pyDictSet : PyDict → String → PyValue → PyDict
  | .nil, k, v => .cons k v .nil
  | .cons k0 v0 t, k, v => .cons k0 v0 (pyDictSet t k v)

/-- Set a batch of key/value pairs. -/
def pyDictSetAll : PyDict → List (String × PyValue) → Option PyDict
  | xs, [] => some xs
  | xs, (k, v) :: rest => pyDictSetAll (pyDictSet xs k v) rest

/-- Pop stack items down to the topmost `MARK`, returning them in
bottom-to-top order. -/
def popToMark : List PkItem → List PyValue → Option (List PyValue × List PkItem)
  | [], _ => none
  | PkItem.mark :: st, acc => some (acc, st)
  | PkItem.val v :: st, acc => popToMark st (v :: acc)

/-- Group a flat bottom-to-top run of stack values into key/value pairs,
requiring string keys (the modelled dict domain). -/
def pairUp : List PyValue → Option (List (String × PyValue))
  | [] => some []
  | .str k :: v :: rest => (pairUp rest).map (fun ps => (k, v) :: ps)
  | _ => none

/-- The protocol-5 unpickler loop over the opcodes the modelled pickler
emits, with a value/mark stack; any other byte, truncation, or a
malformed stack raises (`none`). `MEMOIZE` only records into the memo,
which the modelled opcode stream never reads back, so it is a stack
no-op; `FRAME` lengths are treated as advisory, as in `pickle`. -/
def pkRun : Nat → Bytes → List PkItem → Option PyValue
  | 0, _, _ => none
  | _ + 1, [], _ => none
  | fuel + 1, op :: rest, stack =>
    if op = 0x2e then
      match stack with
      | PkItem.val v :: _ => some v
      | _ => none
    else if op = 0x95 then
      match readN 8 rest with
      | some (_, r) => pkRun fuel r stack
      | none => none
    else if op = 0x4b then
      match rest with
      | x :: r => pkRun fuel r (.val (.int x) :: stack)
      | [] => none
    else if op = 0x4d then
      match rest with
      | a :: b :: r => pkRun fuel r (.val (.int (a + 256 * b)) :: stack)
      | _ => none
    else if op = 0x4a then
      match readN 4 rest with
      | some (ds, r) =>
        let m := beNat ds.reverse
        pkRun fuel r
          (.val (.int (if m < 2147483648 then (m : Int)
            else (m : Int) - 4294967296)) :: stack)
      | none => none
    else if op = 0x8a then
      match rest with
      | len :: r =>
        match readN len r with
        | some (ds, r2) =>
          let m := beNat ds.reverse
          pkRun fuel r2
            (.val (.int (if ds = [] then 0
              else if ds.getLastD 0 < 128 then (m : Int)
              else (m : Int) - (2 ^ (8 * ds.length) : Int))) :: stack)
        | none => none
      | [] => none
    else if op = 0x8c then
      match rest with
      | len :: r =>
        match readN len r with
        | some (u, r2) =>
          match utf8Decode u with
          | some cs => pkRun fuel r2 (.val (.str (String.mk cs)) :: stack)
          | none => none
        | none => none
      | [] => none
    else if op = 0x58 then
      match readN 4 rest with
      | some (ds, r) =>
        match readN (beNat ds.reverse) r with
        | some (u, r2) =>
          match utf8Decode u with
          | some cs => pkRun fuel r2 (.val (.str (String.mk cs)) :: stack)
          | none => none
        | none => none
      | none => none
    else if op = 0x94 then pkRun fuel rest stack
    else if op = 0x4e then pkRun fuel rest (.val .pynone :: stack)
    else if op = 0x5d then pkRun fuel rest (.val (.list .nil) :: stack)
    else if op = 0x7d then pkRun fuel rest (.val (.dict .nil) :: stack)
    else if op = 0x28 then pkRun fuel rest (.mark :: stack)
    else if op = 0x61 then
      match stack with
      | .val v :: .val (.list xs) :: st =>
        pkRun fuel rest (.val (.list (pyListAppend xs v)) :: st)
      | _ => none
    else if op = 0x65 then
      match popToMark stack [] with
      | some (vs, .val (.list xs) :: st) =>
        pkRun fuel rest (.val (.list (pyListExtend xs vs)) :: st)
      | _ => none
    else if op = 0x73 then
      match stack with
      | .val v :: .val (.str k) :: .val (.dict xs) :: st =>
        pkRun fuel rest (.val (.dict (pyDictSet xs k v)) :: st)
      | _ => none
    else if op = 0x75 then
      match popToMark stack [] with
      | some (vs, .val (.dict xs) :: st) =>
        match pairUp vs with
        | some ps =>
          match pyDictSetAll xs ps with
          | some xs2 => pkRun fuel rest (.val (.dict xs2) :: st)
          | none => none
        | none => none
      | _ => none
    else none

/-- `Pickle.decode`: `pickle.loads(data)` with no exception handler —
malformed bytes raise (`EOFError`/`UnpicklingError`), modelled as
`error`. The model requires the protocol header its own encoder emits. -/
def Pickle.decode (d : Bytes) : DecodeOutcome :=
  match d with
  | b0 :: p :: rest =>
    if b0 = 0x80 ∧ p ≤ 5 then
      match pkRun (d.length + 2) rest [] with
      | some v => .ok v
      | none => .error
    else .error
  | _ => .error

end OpenCore

namespace OpenCore

/-- C6: for each built-in serializer variant (Json, MessagePack, Pickle)
and each representative value — the integer `123`, the string `"123"`,
the empty mapping, the mapping `key ↦ value`, and the list `[1, 2, 3]` —
encode succeeds and decode of the encoding returns exactly the original
value. -/
theorem serializer_round_trip :
    (Json.decode (Json.encode (PyValue.int 123)) = .ok (PyValue.int 123) ∧
     Json.decode (Json.encode (PyValue.str "123")) = .ok (PyValue.str "123") ∧
     Json.decode (Json.encode (PyValue.dict .nil)) = .ok (PyValue.dict .nil) ∧
     Json.decode (Json.encode (PyValue.dict (.cons "key" (.str "value") .nil)))
       = .ok (PyValue.dict (.cons "key" (.str "value") .nil)) ∧
     Json.decode (Json.encode
        (PyValue.list (.cons (.int 1) (.cons (.int 2) (.cons (.int 3) .nil)))))
       = .ok (PyValue.list (.cons (.int 1) (.cons (.int 2) (.cons (.int 3) .nil))))) ∧
    (MessagePack.decode (MessagePack.encode (PyValue.int 123)) = .ok (PyValue.int 123) ∧
     MessagePack.decode (MessagePack.encode (PyValue.str "123")) = .ok (PyValue.str "123") ∧
     MessagePack.decode (MessagePack.encode (PyValue.dict .nil)) = .ok (PyValue.dict .nil) ∧
     MessagePack.decode (MessagePack.encode (PyValue.dict (.cons "key" (.str "value") .nil)))
       = .ok (PyValue.dict (.cons "key" (.str "value") .nil)) ∧
     MessagePack.decode (MessagePack.encode
        (PyValue.list (.cons (.int 1) (.cons (.int 2) (.cons (.int 3) .nil)))))
       = .ok (PyValue.list (.cons (.int 1) (.cons (.int 2) (.cons (.int 3) .nil))))) ∧
    (Pickle.decode (Pickle.encode (PyValue.int 123)) = .ok (PyValue.int 123) ∧
     Pickle.decode (Pickle.encode (PyValue.str "123")) = .ok (PyValue.str "123") ∧
     Pickle.decode (Pickle.encode (PyValue.dict .nil)) = .ok (PyValue.dict .nil) ∧
     Pickle.decode (Pickle.encode (PyValue.dict (.cons "key" (.str "value") .nil)))
       = .ok (PyValue.dict (.cons "key" (.str "value") .nil)) ∧
     Pickle.decode (Pickle.encode
        (PyValue.list (.cons (.int 1) (.cons (.int 2) (.cons (.int 3) .nil)))))
       = .ok (PyValue.list (.cons (.int 1) (.cons (.int 2) (.cons (.int 3) .nil))))) :=
  ⟨⟨rfl, rfl, rfl, rfl, rfl⟩, ⟨rfl, rfl, rfl, rfl, rfl⟩, ⟨rfl, rfl, rfl, rfl, rfl⟩⟩

/-- C5 counterexample: the empty byte string is not valid encoded data,
yet `Json.decode` does not raise on it — the `except DecodeError` handler
returns the `None` sentinel instead, refuting the claim that the JSON
serializer raises on every malformed input. -/
theorem json_decode_malformed_not_raising :
    jsonParseBytes [] = none ∧
    Json.decode [] = DecodeOutcome.sentinel ∧
    Json.decode [] ≠ DecodeOutcome.error :=
  ⟨rfl, rfl, fun h => nomatch h⟩

/-- C5 (amended): the JSON serializer is the lenient variant, not the
loud one: whenever the underlying msgspec JSON decode fails,
`Json.decode` returns the `None` sentinel rather than raising. -/
theorem json_decode_sentinel_on_malformed (d : Bytes)
    (h : jsonParseBytes d = none) :
    Json.decode d = DecodeOutcome.sentinel := by
  simp [Json.decode, h]

/-- Witness for C5 (amended): applied at the concrete malformed input of
the repository's own test, the empty byte string. -/
theorem json_decode_sentinel_on_malformed_witness :
    jsonParseBytes [] = none ∧ Json.decode [] = DecodeOutcome.sentinel :=
  ⟨rfl, json_decode_sentinel_on_malformed [] rfl⟩

/-- C7: exactly one of the three serializer variants is lenient, and it
is Json: `Json.decode` never raises (every failure becomes the `None`
sentinel), while `MessagePack.decode` and `Pickle.decode` never return a
sentinel and raise on malformed input, e.g. on the empty byte string. -/
theorem serializer_leniency_asymmetry :
    (∀ d : Bytes, Json.decode d ≠ DecodeOutcome.error) ∧
    Json.decode [] = DecodeOutcome.sentinel ∧
    (∀ d : Bytes, MessagePack.decode d ≠ DecodeOutcome.sentinel) ∧
    MessagePack.decode [] = DecodeOutcome.error ∧
    (∀ d : Bytes, Pickle.decode d ≠ DecodeOutcome.sentinel) ∧
    Pickle.decode [] = DecodeOutcome.error := by
  refine ⟨?_, rfl, ?_, rfl, ?_, rfl⟩
  · intro d
    unfold Json.decode
    cases jsonParseBytes d <;> simp
  · intro d
    unfold MessagePack.decode
    cases mpDec (2 * d.length + 4) d with
    | none => simp
    | some p =>
      obtain ⟨v, r⟩ := p
      cases r <;> simp
  · intro d
    rcases d with _ | ⟨b0, _ | ⟨p, rest⟩⟩
    · simp [Pickle.decode]
    · simp [Pickle.decode]
    · simp only [Pickle.decode]
      split
      · cases hrun : pkRun (rest.length + 1 + 1 + 2) rest [] <;> simp [hrun]
      · simp

end OpenCore
